import Mathlib

/-!
# claude-usage-exporter: the adaptive per-account poller

A shallow embedding of `poller.go` (`clamp`, `newAccountPoller`, `doPoll`, `run`),
of the configuration defaults of `main.go` (`loadConfig`, `main`) and of the data
model of `claude.go` (`usageWindow`, `usageResponse`).

Modelling conventions.

* `time.Duration` and `int` are 64-bit signed integers: they are embedded as `Int`,
  and every arithmetic result the code stores goes through `wrapInt64`
  (Go integer arithmetic wraps silently).  `int` is taken to be 64 bits wide, as on
  the usual 64-bit targets.
* A `time.Time` is the number of nanoseconds since the Unix epoch, as an `Int`.
* A utilization is a `float64` decoded from JSON, hence finite; finite floats are
  rationals and `clamp` and `doPoll` only compare and copy them, so utilizations
  are embedded as `ℚ`.
* `time.Parse(time.RFC3339, _)` belongs to the Go standard library; it is a
  parameter `timeParse : String → Option Int` of the model.
* The metric instruments are an external sink: `doPoll` returns the list of writes
  it makes, in program order, next to the new poller state.
-/

namespace ClaudeUsageExporter

/-! ## Machine integers and time -/

/-- Smallest `int64`, also `minDuration` of package `time`. -/
def minInt64 : Int := -(2 ^ 63)

/-- Largest `int64`, also `maxDuration` of package `time`. -/
def maxInt64 : Int := 2 ^ 63 - 1

/-- Two's-complement wrap-around of an integer result to 64 bits. -/
def wrapInt64 (x : Int) : Int := (x + 2 ^ 63) % 2 ^ 64 - 2 ^ 63

/-- The integer is a value of a 64-bit signed Go type. -/
def Representable (x : Int) : Prop := minInt64 ≤ x ∧ x ≤ maxInt64

instance (x : Int) : Decidable (Representable x) := by
  unfold Representable; exact inferInstance

/-- Go `time.Second`, in nanoseconds. -/
def Second : Int := 1000000000

/-- Go `time.Minute`, in nanoseconds. -/
def Minute : Int := 60 * Second

/-- Go `Time.Sub`: the difference `t - u` as a `Duration`, saturated to
`maxDuration` / `minDuration` when it is out of range. -/
def timeSub (t u : Int) : Int :=
  if t - u > maxInt64 then maxInt64
  else if t - u < minInt64 then minInt64
  else t - u

/-- Go `Time.Unix`: whole seconds since the epoch (rounded towards minus infinity). -/
def timeUnix (t : Int) : Int := Int.fdiv t Second

/-! ## Data model (`claude.go`, `main.go`, `poller.go`) -/

/-- One quota window of the usage response (`claude.go`). -/
structure usageWindow where
  Utilization : ℚ
  ResetsAt : String
deriving DecidableEq

/-- The decoded usage response; a `nil` pointer is `none` (`claude.go`). -/
structure usageResponse where
  FiveHour : Option usageWindow
  SevenDay : Option usageWindow
deriving DecidableEq

/-- Credentials of one account (`main.go`). -/
structure Account where
  Name : String
  OrgID : String
  SessionKey : String
deriving DecidableEq

/-- Top-level configuration (`main.go`). -/
structure Config where
  Accounts : List Account
  ActiveInterval : Int
  IdleInterval : Int
  IdleThreshold : Int
  ResetBurstWindow : Int
  ListenAddr : String
deriving DecidableEq

/-- The keys a configuration file may set; an absent key is `none`.  The values
are those the YAML text denotes, before they are stored in 64-bit fields. -/
structure ConfigFile where
  accounts : Option (List Account)
  activeInterval : Option Int
  idleInterval : Option Int
  idleThreshold : Option Int
  resetBurstWindow : Option Int
  listenAddr : Option String
deriving DecidableEq

/-- A present numeric key decodes only if its value fits the 64-bit field. -/
def fieldDecodes : Option Int → Bool
  | none => true
  | some v => decide (Representable v)

/-- Embedding of `loadConfig`: the defaults are set first and the decoder then
overwrites exactly the keys present in the file.  `none` as argument is a file
that cannot be opened; the result `none` is the error return. -/
def loadConfig (file : Option ConfigFile) : Option Config :=
  match file with
  | none => none
  | some doc =>
    if fieldDecodes doc.activeInterval && fieldDecodes doc.idleInterval
        && fieldDecodes doc.idleThreshold && fieldDecodes doc.resetBurstWindow then
      some
        { Accounts := doc.accounts.getD []
          ActiveInterval := doc.activeInterval.getD (30 * Second)
          IdleInterval := doc.idleInterval.getD (5 * Minute)
          IdleThreshold := doc.idleThreshold.getD 3
          ResetBurstWindow := doc.resetBurstWindow.getD (2 * Minute)
          ListenAddr := doc.listenAddr.getD ":9091" }
    else none

/-- Scheduler parameters of one poller (`poller.go`). -/
structure pollerConfig where
  ActiveInterval : Int
  IdleInterval : Int
  IdleThreshold : Int
  ResetBurstWindow : Int
deriving DecidableEq

/-- All four fields are 64-bit values. -/
def pollerConfig.InRange (cfg : pollerConfig) : Prop :=
  Representable cfg.ActiveInterval ∧ Representable cfg.IdleInterval ∧
    Representable cfg.IdleThreshold ∧ Representable cfg.ResetBurstWindow

instance (cfg : pollerConfig) : Decidable cfg.InRange := by
  unfold pollerConfig.InRange; exact inferInstance

/-- The per-account poller state (`poller.go`); the instruments and the mutex
are not part of the scheduling state. -/
structure accountPoller where
  acc : Account
  cfg : pollerConfig
  prevSession : ℚ
  prevWeekly : ℚ
  unchangedCount : Int
  interval : Int
deriving DecidableEq

/-- Embedding of `newAccountPoller`, instrument registration succeeding: the zero
value of every field not listed in the composite literal. -/
def newAccountPoller (acc : Account) (cfg : pollerConfig) : accountPoller :=
  { acc := acc
    cfg := cfg
    prevSession := 0
    prevWeekly := 0
    unchangedCount := 0
    interval := cfg.ActiveInterval }

/-- The `pollerConfig` literal built in `main`. -/
def pollerCfgOf (cfg : Config) : pollerConfig :=
  { ActiveInterval := cfg.ActiveInterval
    IdleInterval := cfg.IdleInterval
    IdleThreshold := cfg.IdleThreshold
    ResetBurstWindow := cfg.ResetBurstWindow }

/-- Embedding of the start-up part of `main`: the pollers that are started, or
`none` when the process exits (configuration error or no account). -/
def startPollers (file : Option ConfigFile) : Option (List accountPoller) :=
  match loadConfig file with
  | none => none
  | some cfg =>
    if cfg.Accounts.length = 0 then none
    else some (cfg.Accounts.map fun acc => newAccountPoller acc (pollerCfgOf cfg))

/-! ## Metric writes -/

/-- The seven instruments of a poller. -/
inductive Instrument where
  | sessionUtil
  | weeklyUtil
  | sessionReset
  | weeklyReset
  | lastSuccess
  | pollInterval
  | pollErrors
deriving DecidableEq

/-- One `Record` (gauge) or `Add` (counter) call, with its `account` attribute.
Gauge values are `float64` in the source; they are kept as exact rationals. -/
structure MetricWrite where
  gauge : Instrument
  value : ℚ
  account : String
deriving DecidableEq

/-! ## The poll -/

/-- Embedding of `clamp`. -/
def clamp (v : ℚ) : ℚ :=
  if v < 0 then 0
  else if v > 100 then 100
  else v

/-- One `if w := usage.X; w != nil` block of `doPoll`: the clamped utilization,
whether the block sets `burstNeeded`, and the gauges it records with their values
(the `account` attribute is attached by `doPoll`). -/
def pollWindow (timeParse : String → Option Int) (cfg : pollerConfig) (now : Int)
    (utilGauge resetGauge : Instrument) :
    Option usageWindow → ℚ × Bool × List (Instrument × ℚ)
  | none => (0, false, [])
  | some w =>
    let u := clamp w.Utilization
    match timeParse w.ResetsAt with
    | none => (u, false, [(utilGauge, u)])
    | some t =>
      let d := timeSub t now
      (u, decide (d > 0 ∧ d < cfg.ResetBurstWindow),
        [(utilGauge, u), (resetGauge, (timeUnix t : ℚ))])

/-- Embedding of `doPoll`.  `fetch` is the result of `fetchUsage` (`none` for an
error) and `now` the value of `time.Now()`.  Returns the new state and the metric
writes of this poll, each carrying `attrs`, the `account` attribute. -/
def doPoll (timeParse : String → Option Int) (p : accountPoller)
    (fetch : Option usageResponse) (now : Int) : accountPoller × List MetricWrite :=
  let attrs := fun (w : Instrument × ℚ) => MetricWrite.mk w.1 w.2 p.acc.Name
  match fetch with
  | none => (p, [attrs (Instrument.pollErrors, 1)])
  | some usage =>
    let s := pollWindow timeParse p.cfg now
      Instrument.sessionUtil Instrument.sessionReset usage.FiveHour
    let k := pollWindow timeParse p.cfg now
      Instrument.weeklyUtil Instrument.weeklyReset usage.SevenDay
    let sessionU := s.1
    let weeklyU := k.1
    let burstNeeded := s.2.1 || k.2.1
    let changed := sessionU != p.prevSession || weeklyU != p.prevWeekly
    let p1 := { p with prevSession := sessionU, prevWeekly := weeklyU }
    let p2 :=
      if burstNeeded || changed then
        { p1 with unchangedCount := 0, interval := p1.cfg.ActiveInterval }
      else
        let count := wrapInt64 (p1.unchangedCount + 1)
        if count ≥ p1.cfg.IdleThreshold then
          let doubled := wrapInt64 (p1.interval * 2)
          let doubled := if doubled > p1.cfg.IdleInterval then p1.cfg.IdleInterval else doubled
          { p1 with unchangedCount := count, interval := doubled }
        else
          { p1 with unchangedCount := count }
    (p2, (s.2.2 ++ k.2.2
      ++ [(Instrument.lastSuccess, (timeUnix now : ℚ))]
      ++ [(Instrument.pollInterval, (p2.interval : ℚ) / (Second : ℚ))]).map attrs)

/-- One iteration of the loop of `run`: what `fetchUsage` returned and the time. -/
structure PollInput where
  fetch : Option usageResponse
  now : Int
deriving DecidableEq

/-- Embedding of `run`, cut off after finitely many polls: the state after the
polls whose inputs are listed, in order.  The sleeps between polls change no state. -/
def run (timeParse : String → Option Int) (p : accountPoller) :
    List PollInput → accountPoller
  | [] => p
  | i :: rest => run timeParse (doPoll timeParse p i.fetch i.now).1 rest

/-! ## Notions used in the statements -/

/-- The utilization `doPoll` takes for a window: `clamp` of the reported value,
and the zero value of `float64` for a window that is absent. -/
def windowUtil : Option usageWindow → ℚ
  | none => 0
  | some w => clamp w.Utilization

/-- The value of the local variable `burstNeeded` of `doPoll` after both window
blocks. -/
def burstNeeded (timeParse : String → Option Int) (cfg : pollerConfig) (now : Int)
    (usage : usageResponse) : Bool :=
  (pollWindow timeParse cfg now Instrument.sessionUtil Instrument.sessionReset
      usage.FiveHour).2.1
    || (pollWindow timeParse cfg now Instrument.weeklyUtil Instrument.weeklyReset
      usage.SevenDay).2.1

/-- The window is present, its reset timestamp parses, and the reset instant lies
strictly between `now` and `now + window`, in exact integer arithmetic. -/
def nearReset (timeParse : String → Option Int) (window now : Int) :
    Option usageWindow → Bool
  | none => false
  | some x =>
    match timeParse x.ResetsAt with
    | none => false
    | some t => decide (0 < t - now ∧ t - now < window)

/-- The value of the local variable `changed` of `doPoll`. -/
def utilChanged (p : accountPoller) (usage : usageResponse) : Bool :=
  windowUtil usage.FiveHour != p.prevSession || windowUtil usage.SevenDay != p.prevWeekly


/-! ## Example inputs -/

/-- An account for the worked examples. -/
def exampleAccount : Account := ⟨"main", "org-1", "sk-1"⟩

/-- The instant 2026-01-01T00:00:00Z. -/
def exampleNow : Int := 1767225600 * Second

/-- A stand-in for `time.Parse` in the worked examples: it knows the two
timestamps one and two minutes after `exampleNow` and rejects everything else. -/
def exampleParse : String → Option Int := fun s =>
  if s = "2026-01-01T00:01:00Z" then some (1767225660 * Second)
  else if s = "2026-01-01T00:02:00Z" then some (1767225720 * Second)
  else none

/-- The scheduler parameters `loadConfig` yields for a file that sets none of them. -/
def defaultConfig : pollerConfig := ⟨30 * Second, 5 * Minute, 3, 2 * Minute⟩

/-- A configuration file that only lists one account. -/
def accountsOnlyFile : ConfigFile :=
  ⟨some [exampleAccount], none, none, none, none, none⟩

/-- A usage response with a session window only; its timestamp does not parse
with `exampleParse`. -/
def sessionOnly (u : ℚ) : usageResponse := ⟨some ⟨u, "soon"⟩, none⟩

/-- A usage response without any window. -/
def noWindows : usageResponse := ⟨none, none⟩

/-- The window with its reset timestamp replaced. -/
def withResetsAt (w : usageWindow) (s : String) : usageWindow := { w with ResetsAt := s }

/-- The writes made to the two utilization gauges, in order. -/
def utilWrites (ws : List MetricWrite) : List MetricWrite :=
  ws.filter fun m => m.gauge == Instrument.sessionUtil || m.gauge == Instrument.weeklyUtil

/-- A session window with utilization 0 that resets one minute after `exampleNow`. -/
def resetInOneMinute : usageResponse := ⟨some ⟨0, "2026-01-01T00:01:00Z"⟩, none⟩

/-- A session window with utilization 0 that resets exactly two minutes (the
default burst window) after `exampleNow`. -/
def resetInTwoMinutes : usageResponse := ⟨some ⟨0, "2026-01-01T00:02:00Z"⟩, none⟩

/-- A weekly window with utilization 10 that resets one minute after `exampleNow`. -/
def weeklySoon : usageWindow := ⟨10, "2026-01-01T00:01:00Z"⟩

/-- A configuration file that sets both intervals to 2^62 ns and the threshold to 1. -/
def overflowFile : ConfigFile :=
  ⟨some [exampleAccount], some (2 ^ 62), some (2 ^ 62), some 1, none, none⟩

/-- The poller `main` starts for `overflowFile`. -/
def overflowPoller : accountPoller :=
  newAccountPoller exampleAccount ⟨2 ^ 62, 2 ^ 62, 1, 2 * Minute⟩

/-- The default poller after two polls that both report session utilization 50. -/
def afterTwoFifties : accountPoller :=
  run exampleParse (newAccountPoller exampleAccount defaultConfig)
    [⟨some (sessionOnly 50), exampleNow⟩, ⟨some (sessionOnly 50), exampleNow⟩]

/-- What the default branch of `doPoll` does to the pair (streak, interval). -/
def idleStep (threshold idle : Int) (s : Int × Int) : Int × Int :=
  let count := wrapInt64 (s.1 + 1)
  if count ≥ threshold then
    let doubled := wrapInt64 (s.2 * 2)
    (count, if doubled > idle then idle else doubled)
  else (count, s.2)

/-- The default branch taken `n` times in a row. -/
def idleSteps (threshold idle : Int) : Nat → Int × Int → Int × Int
  | 0, s => s
  | n + 1, s => idleSteps threshold idle n (idleStep threshold idle s)

/-- The interval the code reaches after `n` polls of a fresh poller that all report
the same non-zero utilization, for threshold 3, 30 s and 5 min. -/
def steadySchedule (n : Nat) : Int :=
  if n ≤ 3 then 30 * Second
  else if n = 4 then 60 * Second
  else if n = 5 then 120 * Second
  else if n = 6 then 240 * Second
  else 300 * Second

/-- A configuration file that sets the active interval to 10 min and keeps the
default idle interval of 5 min. -/
def invertedFile : ConfigFile :=
  ⟨some [exampleAccount], some (10 * Minute), none, none, none, none⟩

/-- A configuration file with a negative active interval and threshold 1. -/
def negativeFile : ConfigFile :=
  ⟨some [exampleAccount], some (-(10 * Second)), none, some 1, none, none⟩

/-- The poller `main` starts for `invertedFile`. -/
def invertedPoller : accountPoller :=
  newAccountPoller exampleAccount ⟨10 * Minute, 5 * Minute, 3, 2 * Minute⟩

/-- The poller `main` starts for `negativeFile`. -/
def negativePoller : accountPoller :=
  newAccountPoller exampleAccount ⟨-(10 * Second), 5 * Minute, 1, 2 * Minute⟩

/-- A default poller whose streak counter holds the largest 64-bit value. -/
def saturatedPoller : accountPoller :=
  { newAccountPoller exampleAccount defaultConfig with unchangedCount := maxInt64 }

/-! ## Basic facts -/

theorem wrapInt64_eq_self {x : Int} (h : Representable x) : wrapInt64 x = x := by
  unfold Representable minInt64 maxInt64 at h
  unfold wrapInt64
  norm_num at h ⊢
  omega

theorem wrapInt64_representable (x : Int) : Representable (wrapInt64 x) := by
  unfold Representable minInt64 maxInt64 wrapInt64
  norm_num
  omega

theorem wrapInt64_succ_wrap (x n : Int) :
    wrapInt64 (wrapInt64 (x + 1) + n) = wrapInt64 (x + (n + 1)) := by
  unfold wrapInt64
  norm_num
  omega

theorem clamp_nonneg (v : ℚ) : 0 ≤ clamp v := by
  unfold clamp
  split_ifs <;> linarith

theorem clamp_le_hundred (v : ℚ) : clamp v ≤ 100 := by
  unfold clamp
  split_ifs <;> linarith

theorem windowUtil_bounds (w : Option usageWindow) :
    0 ≤ windowUtil w ∧ windowUtil w ≤ 100 := by
  cases w with
  | none => simp [windowUtil]
  | some x => exact ⟨clamp_nonneg _, clamp_le_hundred _⟩

theorem pollWindow_util (timeParse : String → Option Int) (cfg : pollerConfig) (now : Int)
    (g r : Instrument) (w : Option usageWindow) :
    (pollWindow timeParse cfg now g r w).1 = windowUtil w := by
  cases w with
  | none => rfl
  | some x =>
    simp only [pollWindow, windowUtil]
    cases timeParse x.ResetsAt <;> rfl

theorem timeSub_pos_iff (t u : Int) : 0 < timeSub t u ↔ 0 < t - u := by
  unfold timeSub minInt64 maxInt64
  norm_num
  split_ifs <;> omega

theorem timeSub_lt_iff (t u w : Int) (hw : w ≤ maxInt64) (hpos : 0 < t - u) :
    timeSub t u < w ↔ t - u < w := by
  unfold timeSub
  unfold minInt64 maxInt64 at *
  norm_num at *
  split_ifs <;> omega

theorem pollWindow_burst_eq (timeParse : String → Option Int) (cfg : pollerConfig)
    (now : Int) (g r : Instrument) (w : Option usageWindow)
    (hw : cfg.ResetBurstWindow ≤ maxInt64) :
    (pollWindow timeParse cfg now g r w).2.1 = nearReset timeParse cfg.ResetBurstWindow now w := by
  cases w with
  | none => rfl
  | some x =>
    simp only [pollWindow, nearReset]
    cases hp : timeParse x.ResetsAt with
    | none => rfl
    | some t =>
      simp only [gt_iff_lt]
      by_cases h1 : 0 < t - now
      · have e1 : (0 < timeSub t now) = True := eq_true ((timeSub_pos_iff t now).2 h1)
        have e2 : (timeSub t now < cfg.ResetBurstWindow) = (t - now < cfg.ResetBurstWindow) :=
          propext (timeSub_lt_iff t now _ hw h1)
        simp only [e1, e2, h1]
      · have e1 : ¬ 0 < timeSub t now := fun h => h1 ((timeSub_pos_iff t now).1 h)
        simp [e1, h1]

theorem burstNeeded_eq (timeParse : String → Option Int) (cfg : pollerConfig) (now : Int)
    (usage : usageResponse) (hw : cfg.ResetBurstWindow ≤ maxInt64) :
    burstNeeded timeParse cfg now usage
      = (nearReset timeParse cfg.ResetBurstWindow now usage.FiveHour
        || nearReset timeParse cfg.ResetBurstWindow now usage.SevenDay) := by
  unfold burstNeeded
  rw [pollWindow_burst_eq _ _ _ _ _ _ hw, pollWindow_burst_eq _ _ _ _ _ _ hw]

theorem doPoll_err (timeParse : String → Option Int) (p : accountPoller) (now : Int) :
    doPoll timeParse p none now = (p, [⟨Instrument.pollErrors, 1, p.acc.Name⟩]) := rfl

theorem doPoll_ok_state (timeParse : String → Option Int) (p : accountPoller)
    (usage : usageResponse) (now : Int) :
    (doPoll timeParse p (some usage) now).1 =
      if burstNeeded timeParse p.cfg now usage || utilChanged p usage then
        { p with
          prevSession := windowUtil usage.FiveHour
          prevWeekly := windowUtil usage.SevenDay
          unchangedCount := 0
          interval := p.cfg.ActiveInterval }
      else if wrapInt64 (p.unchangedCount + 1) ≥ p.cfg.IdleThreshold then
        { p with
          prevSession := windowUtil usage.FiveHour
          prevWeekly := windowUtil usage.SevenDay
          unchangedCount := wrapInt64 (p.unchangedCount + 1)
          interval :=
            if wrapInt64 (p.interval * 2) > p.cfg.IdleInterval then p.cfg.IdleInterval
            else wrapInt64 (p.interval * 2) }
      else
        { p with
          prevSession := windowUtil usage.FiveHour
          prevWeekly := windowUtil usage.SevenDay
          unchangedCount := wrapInt64 (p.unchangedCount + 1) } := by
  simp only [doPoll, burstNeeded, utilChanged, pollWindow_util]

theorem doPoll_ok_prevSession (timeParse : String → Option Int) (p : accountPoller)
    (usage : usageResponse) (now : Int) :
    (doPoll timeParse p (some usage) now).1.prevSession = windowUtil usage.FiveHour := by
  rw [doPoll_ok_state]; split_ifs <;> rfl

theorem doPoll_ok_prevWeekly (timeParse : String → Option Int) (p : accountPoller)
    (usage : usageResponse) (now : Int) :
    (doPoll timeParse p (some usage) now).1.prevWeekly = windowUtil usage.SevenDay := by
  rw [doPoll_ok_state]; split_ifs <;> rfl

theorem doPoll_cfg (timeParse : String → Option Int) (p : accountPoller)
    (fetch : Option usageResponse) (now : Int) :
    (doPoll timeParse p fetch now).1.cfg = p.cfg := by
  cases fetch with
  | none => rfl
  | some usage => rw [doPoll_ok_state]; split_ifs <;> rfl

theorem doPoll_acc (timeParse : String → Option Int) (p : accountPoller)
    (fetch : Option usageResponse) (now : Int) :
    (doPoll timeParse p fetch now).1.acc = p.acc := by
  cases fetch with
  | none => rfl
  | some usage => rw [doPoll_ok_state]; split_ifs <;> rfl

theorem doPoll_reset (timeParse : String → Option Int) (p : accountPoller)
    (usage : usageResponse) (now : Int)
    (h : burstNeeded timeParse p.cfg now usage = true ∨ utilChanged p usage = true) :
    (doPoll timeParse p (some usage) now).1.unchangedCount = 0
      ∧ (doPoll timeParse p (some usage) now).1.interval = p.cfg.ActiveInterval := by
  rw [doPoll_ok_state, if_pos (by simpa using h)]
  exact ⟨rfl, rfl⟩

theorem doPoll_idle (timeParse : String → Option Int) (p : accountPoller)
    (usage : usageResponse) (now : Int)
    (hb : burstNeeded timeParse p.cfg now usage = false) (hc : utilChanged p usage = false) :
    (doPoll timeParse p (some usage) now).1.unchangedCount = wrapInt64 (p.unchangedCount + 1)
      ∧ (doPoll timeParse p (some usage) now).1.interval =
        if wrapInt64 (p.unchangedCount + 1) ≥ p.cfg.IdleThreshold then
          (if wrapInt64 (p.interval * 2) > p.cfg.IdleInterval then p.cfg.IdleInterval
            else wrapInt64 (p.interval * 2))
        else p.interval := by
  rw [doPoll_ok_state, if_neg (by simp [hb, hc])]
  split_ifs <;> exact ⟨rfl, rfl⟩

theorem utilChanged_eq_false_iff (p : accountPoller) (usage : usageResponse) :
    utilChanged p usage = false
      ↔ windowUtil usage.FiveHour = p.prevSession ∧ windowUtil usage.SevenDay = p.prevWeekly := by
  simp [utilChanged]

theorem utilChanged_eq_true_iff (p : accountPoller) (usage : usageResponse) :
    utilChanged p usage = true
      ↔ windowUtil usage.FiveHour ≠ p.prevSession ∨ windowUtil usage.SevenDay ≠ p.prevWeekly := by
  simp [utilChanged]


/-! ## Invariants of the poll loop -/

theorem run_cfg (timeParse : String → Option Int) (ps : List PollInput) :
    ∀ p : accountPoller, (run timeParse p ps).cfg = p.cfg := by
  induction ps with
  | nil => intro p; rfl
  | cons i rest ih =>
    intro p
    simp only [run]
    rw [ih, doPoll_cfg]

theorem wrapInt64_double {x : Int} (h0 : 0 ≤ x) (h1 : x < 2 ^ 62) : wrapInt64 (x * 2) = x * 2 := by
  apply wrapInt64_eq_self
  unfold Representable minInt64 maxInt64
  norm_num at h1 ⊢
  omega

/-- One poll keeps the interval between the two configured bounds, when these are
ordered, non-negative and small enough for the doubling not to wrap. -/
theorem doPoll_interval_bounds (timeParse : String → Option Int) (p : accountPoller)
    (fetch : Option usageResponse) (now : Int)
    (h0 : 0 ≤ p.cfg.ActiveInterval) (h1 : p.cfg.ActiveInterval ≤ p.cfg.IdleInterval)
    (h2 : p.cfg.IdleInterval < 2 ^ 62)
    (hlo : p.cfg.ActiveInterval ≤ p.interval) (hhi : p.interval ≤ p.cfg.IdleInterval) :
    p.cfg.ActiveInterval ≤ (doPoll timeParse p fetch now).1.interval
      ∧ (doPoll timeParse p fetch now).1.interval ≤ p.cfg.IdleInterval := by
  cases fetch with
  | none => exact ⟨hlo, hhi⟩
  | some usage =>
    have hd : wrapInt64 (p.interval * 2) = p.interval * 2 :=
      wrapInt64_double (le_trans h0 hlo) (lt_of_le_of_lt hhi h2)
    rw [doPoll_ok_state, hd]
    split_ifs <;> simp only <;> constructor <;> omega

theorem run_interval_bounds (timeParse : String → Option Int) (ps : List PollInput) :
    ∀ p : accountPoller, 0 ≤ p.cfg.ActiveInterval → p.cfg.ActiveInterval ≤ p.cfg.IdleInterval →
      p.cfg.IdleInterval < 2 ^ 62 →
      p.cfg.ActiveInterval ≤ p.interval → p.interval ≤ p.cfg.IdleInterval →
      p.cfg.ActiveInterval ≤ (run timeParse p ps).interval
        ∧ (run timeParse p ps).interval ≤ p.cfg.IdleInterval := by
  induction ps with
  | nil => intro p _ _ _ hlo hhi; exact ⟨hlo, hhi⟩
  | cons i rest ih =>
    intro p h0 h1 h2 hlo hhi
    have hstep := doPoll_interval_bounds timeParse p i.fetch i.now h0 h1 h2 hlo hhi
    have hcfg := doPoll_cfg timeParse p i.fetch i.now
    simp only [run]
    have := ih (doPoll timeParse p i.fetch i.now).1 (by rw [hcfg]; exact h0)
      (by rw [hcfg]; exact h1) (by rw [hcfg]; exact h2) (by rw [hcfg]; exact hstep.1)
      (by rw [hcfg]; exact hstep.2)
    rw [hcfg] at this
    exact this

/-- One poll keeps the streak non-negative and raises it by at most one, as long
as the increment does not wrap. -/
theorem doPoll_count_bounds (timeParse : String → Option Int) (p : accountPoller)
    (fetch : Option usageResponse) (now : Int)
    (h0 : 0 ≤ p.unchangedCount) (h1 : p.unchangedCount + 1 < 2 ^ 63) :
    0 ≤ (doPoll timeParse p fetch now).1.unchangedCount
      ∧ (doPoll timeParse p fetch now).1.unchangedCount ≤ p.unchangedCount + 1 := by
  cases fetch with
  | none => exact ⟨h0, by show p.unchangedCount ≤ _; omega⟩
  | some usage =>
    have hw : wrapInt64 (p.unchangedCount + 1) = p.unchangedCount + 1 := by
      apply wrapInt64_eq_self
      unfold Representable minInt64 maxInt64
      norm_num at h1 ⊢
      omega
    rw [doPoll_ok_state, hw]
    split_ifs <;> simp only <;> constructor <;> omega

theorem run_count_bounds (timeParse : String → Option Int) (ps : List PollInput) :
    ∀ p : accountPoller, 0 ≤ p.unchangedCount →
      p.unchangedCount + (ps.length : Int) < 2 ^ 63 →
      0 ≤ (run timeParse p ps).unchangedCount
        ∧ (run timeParse p ps).unchangedCount ≤ p.unchangedCount + (ps.length : Int) := by
  induction ps with
  | nil => intro p h0 _; simp [run, h0]
  | cons i rest ih =>
    intro p h0 h1
    simp only [List.length_cons, Nat.cast_add, Nat.cast_one] at h1 ⊢
    have hstep := doPoll_count_bounds timeParse p i.fetch i.now h0 (by omega)
    have := ih (doPoll timeParse p i.fetch i.now).1 hstep.1 (by omega)
    simp only [run]
    constructor
    · exact this.1
    · omega


theorem run_append (timeParse : String → Option Int) (ps qs : List PollInput) :
    ∀ p : accountPoller,
      run timeParse p (ps ++ qs) = run timeParse (run timeParse p ps) qs := by
  induction ps with
  | nil => intro p; rfl
  | cons i rest ih =>
    intro p
    show run timeParse (doPoll timeParse p i.fetch i.now).1 (rest ++ qs) = _
    rw [ih]
    rfl

theorem run_failed (timeParse : String → Option Int) (p : accountPoller)
    (ps : List PollInput) (h : ∀ i ∈ ps, i.fetch = none) : run timeParse p ps = p := by
  induction ps with
  | nil => rfl
  | cons i rest ih =>
    have hi : i.fetch = none := h i (List.mem_cons_self _ _)
    simp only [run, hi]
    exact ih (fun j hj => h j (List.mem_cons_of_mem _ hj))

theorem nearReset_eq_true_iff (timeParse : String → Option Int) (window now : Int)
    (w : Option usageWindow) :
    nearReset timeParse window now w = true
      ↔ ∃ x t, w = some x ∧ timeParse x.ResetsAt = some t ∧ 0 < t - now ∧ t - now < window := by
  cases w with
  | none => simp [nearReset]
  | some x =>
    simp only [nearReset]
    cases hp : timeParse x.ResetsAt with
    | none => simp [hp]
    | some t =>
      constructor
      · intro h
        have h2 : 0 < t - now ∧ t - now < window := by simpa using h
        exact ⟨x, t, rfl, hp, h2⟩
      · rintro ⟨y, s, hy, hs, h1, h2⟩
        cases hy
        rw [hp] at hs
        cases hs
        simp [h1, h2]

theorem nearReset_eq_false_of_late (timeParse : String → Option Int) (window now : Int)
    (w : Option usageWindow)
    (h : ∀ x t, w = some x → timeParse x.ResetsAt = some t → now + window ≤ t) :
    nearReset timeParse window now w = false := by
  cases hn : nearReset timeParse window now w with
  | false => rfl
  | true =>
    obtain ⟨x, t, hx, ht, _, h2⟩ := (nearReset_eq_true_iff _ _ _ _).1 hn
    have := h x t hx ht
    omega

theorem pollWindow_mem (timeParse : String → Option Int) (cfg : pollerConfig) (now : Int)
    (g r : Instrument) (w : Option usageWindow) (e : Instrument × ℚ)
    (h : e ∈ (pollWindow timeParse cfg now g r w).2.2) :
    (e.1 = g ∧ e.2 = windowUtil w) ∨ e.1 = r := by
  cases w with
  | none => simp [pollWindow] at h
  | some x =>
    simp only [pollWindow] at h
    cases hp : timeParse x.ResetsAt with
    | none =>
      rw [hp] at h
      simp only [List.mem_singleton] at h
      subst h
      exact Or.inl ⟨rfl, rfl⟩
    | some t =>
      rw [hp] at h
      simp only [List.mem_cons, List.mem_singleton, List.not_mem_nil, or_false] at h
      rcases h with h | h
      · subst h; exact Or.inl ⟨rfl, rfl⟩
      · subst h; exact Or.inr rfl

theorem doPoll_ok_writes (timeParse : String → Option Int) (p : accountPoller)
    (usage : usageResponse) (now : Int) :
    (doPoll timeParse p (some usage) now).2 =
      ((pollWindow timeParse p.cfg now Instrument.sessionUtil Instrument.sessionReset
            usage.FiveHour).2.2
        ++ (pollWindow timeParse p.cfg now Instrument.weeklyUtil Instrument.weeklyReset
            usage.SevenDay).2.2
        ++ [(Instrument.lastSuccess, (timeUnix now : ℚ))]
        ++ [(Instrument.pollInterval,
            ((doPoll timeParse p (some usage) now).1.interval : ℚ) / (Second : ℚ))]).map
        fun w => MetricWrite.mk w.1 w.2 p.acc.Name := rfl

theorem pollWindow_unparsable (timeParse : String → Option Int) (cfg : pollerConfig)
    (now : Int) (g r : Instrument) (w : usageWindow) (bad : String)
    (hbad : timeParse bad = none) :
    pollWindow timeParse cfg now g r (some (withResetsAt w bad))
      = (clamp w.Utilization, false, [(g, clamp w.Utilization)]) := by
  simp only [pollWindow, withResetsAt, hbad]

theorem pollWindow_present_writes (timeParse : String → Option Int) (cfg : pollerConfig)
    (now : Int) (g r : Instrument) (w : usageWindow) :
    (pollWindow timeParse cfg now g r (some w)).2.2 = [(g, clamp w.Utilization)]
      ∨ ∃ t, (pollWindow timeParse cfg now g r (some w)).2.2
          = [(g, clamp w.Utilization), (r, (timeUnix t : ℚ))] := by
  simp only [pollWindow]
  cases timeParse w.ResetsAt with
  | none => exact Or.inl rfl
  | some t => exact Or.inr ⟨t, rfl⟩

theorem pollWindow_absent_or_present_writes (timeParse : String → Option Int)
    (cfg : pollerConfig) (now : Int) (g r : Instrument) (w : Option usageWindow) :
    (pollWindow timeParse cfg now g r w).2.2 = []
      ∨ (pollWindow timeParse cfg now g r w).2.2 = [(g, windowUtil w)]
      ∨ ∃ t, (pollWindow timeParse cfg now g r w).2.2
          = [(g, windowUtil w), (r, (timeUnix t : ℚ))] := by
  cases w with
  | none => exact Or.inl rfl
  | some x => exact Or.inr (pollWindow_present_writes timeParse cfg now g r x)

/-- Polls that all report the utilizations the poller has stored, and need no
burst, act on (streak, interval) as `idleSteps`. -/
theorem run_steady (timeParse : String → Option Int) (a b : ℚ) (ps : List PollInput) :
    ∀ p : accountPoller, p.prevSession = a → p.prevWeekly = b →
      (∀ i ∈ ps, ∃ u, i.fetch = some u ∧ windowUtil u.FiveHour = a
        ∧ windowUtil u.SevenDay = b ∧ burstNeeded timeParse p.cfg i.now u = false) →
      ((run timeParse p ps).unchangedCount, (run timeParse p ps).interval)
        = idleSteps p.cfg.IdleThreshold p.cfg.IdleInterval ps.length
            (p.unchangedCount, p.interval) := by
  induction ps with
  | nil => intro p _ _ _; rfl
  | cons i rest ih =>
    intro p hs hk hall
    obtain ⟨u, hu, h5, h7, hb⟩ := hall i (List.mem_cons_self _ _)
    have hc : utilChanged p u = false :=
      (utilChanged_eq_false_iff p u).2 ⟨by rw [h5, hs], by rw [h7, hk]⟩
    have hstep := doPoll_idle timeParse p u i.now hb hc
    have hcfg := doPoll_cfg timeParse p (some u) i.now
    have hrest := ih (doPoll timeParse p (some u) i.now).1
      (by rw [doPoll_ok_prevSession, h5]) (by rw [doPoll_ok_prevWeekly, h7])
      (by
        intro j hj
        rw [hcfg]
        exact hall j (List.mem_cons_of_mem _ hj))
    simp only [run, hu, List.length_cons, idleSteps]
    rw [hrest, hcfg, hstep.1, hstep.2]
    simp only [idleStep]
    split_ifs <;> rfl

theorem idleSteps_at_cap (n : Nat) :
    ∀ c : Int, (idleSteps 3 (5 * Minute) n (c, 5 * Minute)).2 = 5 * Minute := by
  induction n with
  | zero => intro c; rfl
  | succ n ih =>
    intro c
    have hstep : idleStep 3 (5 * Minute) (c, 5 * Minute)
        = (wrapInt64 (c + 1), 5 * Minute) := by
      have hd : wrapInt64 (5 * Minute * 2) > 5 * Minute := by decide
      simp only [idleStep]
      split_ifs <;> rfl
    simp only [idleSteps, hstep]
    exact ih _

theorem idleSteps_add (threshold idle : Int) (m n : Nat) (s : Int × Int) :
    idleSteps threshold idle (m + n) s
      = idleSteps threshold idle n (idleSteps threshold idle m s) := by
  induction m generalizing s with
  | zero => simp [idleSteps]
  | succ m ih =>
    rw [Nat.succ_add]
    simp only [idleSteps]
    exact ih _

theorem idleSteps_schedule (n : Nat) :
    (idleSteps 3 (5 * Minute) n (0, 30 * Second)).2 = steadySchedule (n + 1) := by
  by_cases h : n < 6
  · interval_cases n <;> decide
  · obtain ⟨k, rfl⟩ : ∃ k, n = 6 + k := ⟨n - 6, by omega⟩
    have h6 : idleSteps 3 (5 * Minute) 6 (0, 30 * Second) = (6, 5 * Minute) := by decide
    rw [idleSteps_add, h6, idleSteps_at_cap]
    have : steadySchedule (6 + k + 1) = 300 * Second := by
      unfold steadySchedule
      rw [if_neg (by omega), if_neg (by omega), if_neg (by omega), if_neg (by omega)]
    rw [this]
    decide

theorem startPollers_mem (file : Option ConfigFile) (pollers : List accountPoller)
    (p : accountPoller) (hstart : startPollers file = some pollers) (hp : p ∈ pollers) :
    ∃ cfg acc, loadConfig file = some cfg ∧ acc ∈ cfg.Accounts
      ∧ p = newAccountPoller acc (pollerCfgOf cfg) := by
  unfold startPollers at hstart
  cases hl : loadConfig file with
  | none => rw [hl] at hstart; cases hstart
  | some cfg =>
    rw [hl] at hstart
    simp only at hstart
    split_ifs at hstart
    cases hstart
    obtain ⟨acc, hacc, rfl⟩ := List.mem_map.1 hp
    exact ⟨cfg, acc, rfl, hacc, rfl⟩

theorem run_noWindows_count (timeParse : String → Option Int) (now : Int) (n : Nat) :
    ∀ p : accountPoller, p.prevSession = 0 → p.prevWeekly = 0 →
      Representable p.unchangedCount →
      (run timeParse p (List.replicate n ⟨some noWindows, now⟩)).unchangedCount
        = wrapInt64 (p.unchangedCount + (n : Int)) := by
  induction n with
  | zero =>
    intro p _ _ hr
    simp only [List.replicate, run, Nat.cast_zero, add_zero]
    exact (wrapInt64_eq_self hr).symm
  | succ n ih =>
    intro p hs hk _
    have hb : burstNeeded timeParse p.cfg now noWindows = false := rfl
    have hc : utilChanged p noWindows = false :=
      (utilChanged_eq_false_iff p noWindows).2 ⟨hs.symm, hk.symm⟩
    have hstep := doPoll_idle timeParse p noWindows now hb hc
    have hrest := ih (doPoll timeParse p (some noWindows) now).1
      (by rw [doPoll_ok_prevSession]; rfl) (by rw [doPoll_ok_prevWeekly]; rfl)
      (by rw [hstep.1]; exact wrapInt64_representable _)
    simp only [List.replicate, run]
    rw [hrest, hstep.1, wrapInt64_succ_wrap]
    push_cast
    rfl

/-! ## The fetch-failure path -/

/-- C2: a poll whose fetch fails leaves the interval, the unchanged-streak and both
previous utilizations (indeed the whole poller state) as they were, and its only
metric write is one increment by 1 of the failure counter of the poller's own
account; no gauge is recorded. -/
theorem failed_poll_changes_nothing (timeParse : String → Option Int) (p : accountPoller)
    (now : Int) :
    (doPoll timeParse p none now).1.interval = p.interval
      ∧ (doPoll timeParse p none now).1.unchangedCount = p.unchangedCount
      ∧ (doPoll timeParse p none now).1.prevSession = p.prevSession
      ∧ (doPoll timeParse p none now).1.prevWeekly = p.prevWeekly
      ∧ (doPoll timeParse p none now).1 = p
      ∧ (doPoll timeParse p none now).2 = [⟨Instrument.pollErrors, 1, p.acc.Name⟩] :=
  ⟨rfl, rfl, rfl, rfl, rfl, rfl⟩

/-! ## Change detection -/

/-- C3: of two consecutive successful polls (any number of failed polls may lie
between them), if the clamped session or weekly utilization of the second snapshot
differs from that of the first, an absent window counting as 0, then after the
second poll the interval is `ActiveInterval` and the streak is 0.  The first
conjunct says so for every state the second poll can start from, whatever its
interval and streak; the second for the two polls run from an arbitrary state. -/
theorem changed_utilization_resets (timeParse : String → Option Int) (p : accountPoller)
    (u1 u2 : usageResponse) (now1 now2 : Int) (failed : List PollInput)
    (hfailed : ∀ i ∈ failed, i.fetch = none)
    (h : windowUtil u2.FiveHour ≠ windowUtil u1.FiveHour
      ∨ windowUtil u2.SevenDay ≠ windowUtil u1.SevenDay) :
    (∀ q : accountPoller, q.prevSession = windowUtil u1.FiveHour →
        q.prevWeekly = windowUtil u1.SevenDay →
        (doPoll timeParse q (some u2) now2).1.interval = q.cfg.ActiveInterval
          ∧ (doPoll timeParse q (some u2) now2).1.unchangedCount = 0)
      ∧ (run timeParse p (⟨some u1, now1⟩ :: failed ++ [⟨some u2, now2⟩])).interval
          = p.cfg.ActiveInterval
      ∧ (run timeParse p (⟨some u1, now1⟩ :: failed ++ [⟨some u2, now2⟩])).unchangedCount
          = 0 := by
  have key : ∀ q : accountPoller, q.prevSession = windowUtil u1.FiveHour →
      q.prevWeekly = windowUtil u1.SevenDay →
      (doPoll timeParse q (some u2) now2).1.interval = q.cfg.ActiveInterval
        ∧ (doPoll timeParse q (some u2) now2).1.unchangedCount = 0 := by
    intro q hs hk
    have hc : utilChanged q u2 = true := by
      rw [utilChanged_eq_true_iff, hs, hk]; exact h
    have := doPoll_reset timeParse q u2 now2 (Or.inr hc)
    exact ⟨this.2, this.1⟩
  refine ⟨key, ?_⟩
  have hrun : run timeParse p (⟨some u1, now1⟩ :: failed ++ [⟨some u2, now2⟩])
      = (doPoll timeParse (doPoll timeParse p (some u1) now1).1 (some u2) now2).1 := by
    show run timeParse (doPoll timeParse p (some u1) now1).1
      (failed ++ [⟨some u2, now2⟩]) = _
    rw [run_append, run_failed _ _ _ hfailed]
    rfl
  rw [hrun]
  have := key (doPoll timeParse p (some u1) now1).1 (doPoll_ok_prevSession _ _ _ _)
    (doPoll_ok_prevWeekly _ _ _ _)
  rw [doPoll_cfg] at this
  exact this

/-- Witness for C3: session utilization 50 then 60, with one failed poll between. -/
theorem changed_utilization_resets_witness :
    (run exampleParse (newAccountPoller exampleAccount defaultConfig)
        (⟨some (sessionOnly 50), exampleNow⟩ :: [⟨none, exampleNow⟩]
          ++ [⟨some (sessionOnly 60), exampleNow⟩])).interval = 30 * Second
      ∧ (run exampleParse (newAccountPoller exampleAccount defaultConfig)
        (⟨some (sessionOnly 50), exampleNow⟩ :: [⟨none, exampleNow⟩]
          ++ [⟨some (sessionOnly 60), exampleNow⟩])).unchangedCount = 0 :=
  (changed_utilization_resets exampleParse (newAccountPoller exampleAccount defaultConfig)
    (sessionOnly 50) (sessionOnly 60) exampleNow exampleNow [⟨none, exampleNow⟩]
    (by simp) (by norm_num [windowUtil, sessionOnly, clamp])).2

/-! ## Clamping -/

/-- C6: `clamp v` lies in [0,100]; it is 0 for `v < 0`, 100 for `v > 100` and `v`
otherwise.  Consequently every value a successful poll records to the session or
weekly utilization gauge, and both values it stores as previous utilizations, lie
in [0,100]. -/
theorem utilization_always_clamped (v : ℚ) (timeParse : String → Option Int)
    (p : accountPoller) (usage : usageResponse) (now : Int) :
    (0 ≤ clamp v ∧ clamp v ≤ 100)
      ∧ (v < 0 → clamp v = 0) ∧ (v > 100 → clamp v = 100)
      ∧ (¬ v < 0 → ¬ v > 100 → clamp v = v)
      ∧ (∀ m ∈ (doPoll timeParse p (some usage) now).2,
          m.gauge = Instrument.sessionUtil ∨ m.gauge = Instrument.weeklyUtil →
            0 ≤ m.value ∧ m.value ≤ 100)
      ∧ (0 ≤ (doPoll timeParse p (some usage) now).1.prevSession
          ∧ (doPoll timeParse p (some usage) now).1.prevSession ≤ 100)
      ∧ (0 ≤ (doPoll timeParse p (some usage) now).1.prevWeekly
          ∧ (doPoll timeParse p (some usage) now).1.prevWeekly ≤ 100) := by
  refine ⟨⟨clamp_nonneg v, clamp_le_hundred v⟩, ?_, ?_, ?_, ?_, ?_, ?_⟩
  · intro h; simp [clamp, h]
  · intro h
    have : ¬ v < 0 := by linarith
    simp [clamp, h, this]
  · intro h1 h2; simp only [clamp, if_neg h1, if_neg h2]
  · intro m hm hg
    rw [doPoll_ok_writes] at hm
    simp only [List.mem_map, List.mem_append, List.mem_singleton] at hm
    obtain ⟨e, he, rfl⟩ := hm
    rcases he with ((he | he) | he) | he
    · rcases pollWindow_mem _ _ _ _ _ _ _ he with ⟨_, hv⟩ | hr
      · simp only [hv]; exact windowUtil_bounds _
      · simp only [hr] at hg; rcases hg with hg | hg <;> cases hg
    · rcases pollWindow_mem _ _ _ _ _ _ _ he with ⟨_, hv⟩ | hr
      · simp only [hv]; exact windowUtil_bounds _
      · simp only [hr] at hg; rcases hg with hg | hg <;> cases hg
    · subst he; rcases hg with hg | hg <;> cases hg
    · subst he; rcases hg with hg | hg <;> cases hg
  · rw [doPoll_ok_prevSession]; exact windowUtil_bounds _
  · rw [doPoll_ok_prevWeekly]; exact windowUtil_bounds _

/-- Witness for C6: raw session utilization 250 is recorded and stored as 100. -/
theorem utilization_always_clamped_witness :
    clamp 250 = 100
      ∧ (doPoll exampleParse (newAccountPoller exampleAccount defaultConfig)
          (some (sessionOnly 250)) exampleNow).1.prevSession ≤ 100 :=
  ⟨(utilization_always_clamped 250 exampleParse (newAccountPoller exampleAccount defaultConfig)
      (sessionOnly 250) exampleNow).2.2.1 (by norm_num),
    (utilization_always_clamped 250 exampleParse (newAccountPoller exampleAccount defaultConfig)
      (sessionOnly 250) exampleNow).2.2.2.2.2.1.2⟩

/-! ## Burst mode -/

/-- C4: on a successful poll whose clamped utilizations equal the stored previous
values, (1) if some present window has a parsable reset instant `t` with
`0 < t - now < ResetBurstWindow`, burst mode is triggered: the streak is set to 0
and the interval to `ActiveInterval`; (2) if every present window's parsable reset
instant is `now + ResetBurstWindow` or later, burst mode is not triggered: the
streak is incremented (the 64-bit `++`, which is `+ 1` unless the counter is at
its maximum) instead of reset.  `ResetBurstWindow` is a 64-bit duration. -/
theorem burst_exactly_inside_window (timeParse : String → Option Int) (p : accountPoller)
    (usage : usageResponse) (now : Int)
    (hw : Representable p.cfg.ResetBurstWindow)
    (hs : windowUtil usage.FiveHour = p.prevSession)
    (hk : windowUtil usage.SevenDay = p.prevWeekly) :
    ((∃ w t, (usage.FiveHour = some w ∨ usage.SevenDay = some w)
          ∧ timeParse w.ResetsAt = some t
          ∧ 0 < t - now ∧ t - now < p.cfg.ResetBurstWindow) →
        burstNeeded timeParse p.cfg now usage = true
          ∧ (doPoll timeParse p (some usage) now).1.unchangedCount = 0
          ∧ (doPoll timeParse p (some usage) now).1.interval = p.cfg.ActiveInterval)
      ∧ ((∀ w t, (usage.FiveHour = some w ∨ usage.SevenDay = some w) →
            timeParse w.ResetsAt = some t → now + p.cfg.ResetBurstWindow ≤ t) →
        burstNeeded timeParse p.cfg now usage = false
          ∧ (doPoll timeParse p (some usage) now).1.unchangedCount
              = wrapInt64 (p.unchangedCount + 1)
          ∧ (Representable (p.unchangedCount + 1) →
              (doPoll timeParse p (some usage) now).1.unchangedCount = p.unchangedCount + 1)) := by
  have hb := burstNeeded_eq timeParse p.cfg now usage hw.2
  constructor
  · rintro ⟨w, t, hpres, ht, h1, h2⟩
    have hburst : burstNeeded timeParse p.cfg now usage = true := by
      rw [hb, Bool.or_eq_true]
      rcases hpres with h5 | h7
      · exact Or.inl ((nearReset_eq_true_iff _ _ _ _).2 ⟨w, t, h5, ht, h1, h2⟩)
      · exact Or.inr ((nearReset_eq_true_iff _ _ _ _).2 ⟨w, t, h7, ht, h1, h2⟩)
    have := doPoll_reset timeParse p usage now (Or.inl hburst)
    exact ⟨hburst, this.1, this.2⟩
  · intro hlate
    have hburst : burstNeeded timeParse p.cfg now usage = false := by
      rw [hb, nearReset_eq_false_of_late _ _ _ _ (fun x t hx ht => hlate x t (Or.inl hx) ht),
        nearReset_eq_false_of_late _ _ _ _ (fun x t hx ht => hlate x t (Or.inr hx) ht)]
      rfl
    have hc : utilChanged p usage = false := (utilChanged_eq_false_iff p usage).2 ⟨hs, hk⟩
    have := doPoll_idle timeParse p usage now hburst hc
    refine ⟨hburst, this.1, fun hr => ?_⟩
    rw [this.1, wrapInt64_eq_self hr]

/-- Witness for C4: with the default two-minute burst window and a streak of 2, a
reset one minute ahead resets the streak, a reset exactly two minutes ahead makes
it 3. -/
theorem burst_exactly_inside_window_witness :
    (doPoll exampleParse { newAccountPoller exampleAccount defaultConfig with unchangedCount := 2 }
        (some resetInOneMinute) exampleNow).1.unchangedCount = 0
      ∧ (doPoll exampleParse
          { newAccountPoller exampleAccount defaultConfig with unchangedCount := 2 }
          (some resetInTwoMinutes) exampleNow).1.unchangedCount = 2 + 1 :=
  ⟨((burst_exactly_inside_window exampleParse
        { newAccountPoller exampleAccount defaultConfig with unchangedCount := 2 }
        resetInOneMinute exampleNow (by decide)
        (by norm_num [windowUtil, resetInOneMinute, clamp, newAccountPoller])
        (by norm_num [windowUtil, resetInOneMinute, newAccountPoller])).1
      ⟨⟨0, "2026-01-01T00:01:00Z"⟩, 1767225660 * Second, Or.inl rfl, by decide, by decide,
        by decide⟩).2.1,
    ((burst_exactly_inside_window exampleParse
        { newAccountPoller exampleAccount defaultConfig with unchangedCount := 2 }
        resetInTwoMinutes exampleNow (by decide)
        (by norm_num [windowUtil, resetInTwoMinutes, clamp, newAccountPoller])
        (by norm_num [windowUtil, resetInTwoMinutes, newAccountPoller])).2
      (by
        intro w t hpres ht
        rcases hpres with h | h
        · simp only [resetInTwoMinutes, Option.some.injEq] at h
          subst h
          have : t = 1767225720 * Second := by
            have h2 : exampleParse "2026-01-01T00:02:00Z" = some (1767225720 * Second) := by
              decide
            rw [h2] at ht
            exact (Option.some.inj ht).symm
          subst this
          decide
        · simp [resetInTwoMinutes] at h)).2.2 (by decide)⟩

/-! ## Unparsable reset timestamps -/

/-- C7: in a successful poll, replacing the reset timestamp of a present window by
a string `bad` that does not parse leaves the utilizations stored for both windows
and the writes to both utilization gauges as they were (the window's own clamped
utilization is still recorded), makes no failure-counter write, and leaves burst
detection to the other window alone: `burstNeeded` holds exactly when the other
window is present with a parsable reset instant `t`, `0 < t - now < ResetBurstWindow`.
Stated for the session window (first four conjuncts) and for the weekly window (last
four); `ResetBurstWindow` is a 64-bit duration. -/
theorem unparsable_reset_disables_burst_only (timeParse : String → Option Int)
    (p : accountPoller) (w : usageWindow) (other : Option usageWindow) (bad : String)
    (now : Int) (hbad : timeParse bad = none) (hw : Representable p.cfg.ResetBurstWindow) :
    ((doPoll timeParse p (some ⟨some (withResetsAt w bad), other⟩) now).1.prevSession
          = (doPoll timeParse p (some ⟨some w, other⟩) now).1.prevSession
        ∧ (doPoll timeParse p (some ⟨some (withResetsAt w bad), other⟩) now).1.prevWeekly
          = (doPoll timeParse p (some ⟨some w, other⟩) now).1.prevWeekly)
      ∧ (utilWrites (doPoll timeParse p (some ⟨some (withResetsAt w bad), other⟩) now).2
          = utilWrites (doPoll timeParse p (some ⟨some w, other⟩) now).2
        ∧ ⟨Instrument.sessionUtil, clamp w.Utilization, p.acc.Name⟩
          ∈ (doPoll timeParse p (some ⟨some (withResetsAt w bad), other⟩) now).2)
      ∧ (∀ m ∈ (doPoll timeParse p (some ⟨some (withResetsAt w bad), other⟩) now).2,
          m.gauge ≠ Instrument.pollErrors)
      ∧ (burstNeeded timeParse p.cfg now ⟨some (withResetsAt w bad), other⟩ = true
          ↔ ∃ x t, other = some x ∧ timeParse x.ResetsAt = some t
              ∧ 0 < t - now ∧ t - now < p.cfg.ResetBurstWindow)
      ∧ ((doPoll timeParse p (some ⟨other, some (withResetsAt w bad)⟩) now).1.prevSession
          = (doPoll timeParse p (some ⟨other, some w⟩) now).1.prevSession
        ∧ (doPoll timeParse p (some ⟨other, some (withResetsAt w bad)⟩) now).1.prevWeekly
          = (doPoll timeParse p (some ⟨other, some w⟩) now).1.prevWeekly)
      ∧ (utilWrites (doPoll timeParse p (some ⟨other, some (withResetsAt w bad)⟩) now).2
          = utilWrites (doPoll timeParse p (some ⟨other, some w⟩) now).2
        ∧ ⟨Instrument.weeklyUtil, clamp w.Utilization, p.acc.Name⟩
          ∈ (doPoll timeParse p (some ⟨other, some (withResetsAt w bad)⟩) now).2)
      ∧ (∀ m ∈ (doPoll timeParse p (some ⟨other, some (withResetsAt w bad)⟩) now).2,
          m.gauge ≠ Instrument.pollErrors)
      ∧ (burstNeeded timeParse p.cfg now ⟨other, some (withResetsAt w bad)⟩ = true
          ↔ ∃ x t, other = some x ∧ timeParse x.ResetsAt = some t
              ∧ 0 < t - now ∧ t - now < p.cfg.ResetBurstWindow) := by
  have hu : windowUtil (some (withResetsAt w bad)) = windowUtil (some w) := rfl
  have hnear : nearReset timeParse p.cfg.ResetBurstWindow now (some (withResetsAt w bad))
      = false := by
    simp only [nearReset, withResetsAt, hbad]
  refine ⟨⟨?_, ?_⟩, ⟨?_, ?_⟩, ?_, ?_, ⟨?_, ?_⟩, ⟨?_, ?_⟩, ?_, ?_⟩
  · simp only [doPoll_ok_prevSession, hu]
  · simp only [doPoll_ok_prevWeekly]
  · simp only [doPoll_ok_writes, pollWindow_unparsable _ _ _ _ _ _ _ hbad]
    rcases pollWindow_present_writes timeParse p.cfg now Instrument.sessionUtil
        Instrument.sessionReset w with h1 | ⟨t, h1⟩ <;>
      rcases pollWindow_absent_or_present_writes timeParse p.cfg now Instrument.weeklyUtil
        Instrument.weeklyReset other with h2 | h2 | ⟨s, h2⟩ <;>
      simp [h1, h2, utilWrites]
  · simp only [doPoll_ok_writes, pollWindow_unparsable _ _ _ _ _ _ _ hbad]
    simp
  · intro m hm
    rw [doPoll_ok_writes] at hm
    simp only [List.mem_map, List.mem_append, List.mem_singleton] at hm
    obtain ⟨e, he, rfl⟩ := hm
    rcases he with ((he | he) | he) | he
    · rcases pollWindow_mem _ _ _ _ _ _ _ he with ⟨hg, _⟩ | hr
      · simp [hg]
      · simp [hr]
    · rcases pollWindow_mem _ _ _ _ _ _ _ he with ⟨hg, _⟩ | hr
      · simp [hg]
      · simp [hr]
    · subst he; simp
    · subst he; simp
  · rw [burstNeeded_eq _ _ _ _ hw.2, hnear, Bool.false_or, nearReset_eq_true_iff]
  · simp only [doPoll_ok_prevSession]
  · simp only [doPoll_ok_prevWeekly, hu]
  · simp only [doPoll_ok_writes, pollWindow_unparsable _ _ _ _ _ _ _ hbad]
    rcases pollWindow_present_writes timeParse p.cfg now Instrument.weeklyUtil
        Instrument.weeklyReset w with h1 | ⟨t, h1⟩ <;>
      rcases pollWindow_absent_or_present_writes timeParse p.cfg now Instrument.sessionUtil
        Instrument.sessionReset other with h2 | h2 | ⟨s, h2⟩ <;>
      simp [h1, h2, utilWrites]
  · simp only [doPoll_ok_writes, pollWindow_unparsable _ _ _ _ _ _ _ hbad]
    simp
  · intro m hm
    rw [doPoll_ok_writes] at hm
    simp only [List.mem_map, List.mem_append, List.mem_singleton] at hm
    obtain ⟨e, he, rfl⟩ := hm
    rcases he with ((he | he) | he) | he
    · rcases pollWindow_mem _ _ _ _ _ _ _ he with ⟨hg, _⟩ | hr
      · simp [hg]
      · simp [hr]
    · rcases pollWindow_mem _ _ _ _ _ _ _ he with ⟨hg, _⟩ | hr
      · simp [hg]
      · simp [hr]
    · subst he; simp
    · subst he; simp
  · rw [burstNeeded_eq _ _ _ _ hw.2, hnear, Bool.or_false, nearReset_eq_true_iff]

/-- Witness for C7: the session timestamp is garbage, the weekly window resets in
one minute; the poll is a burst because of the weekly window. -/
theorem unparsable_reset_disables_burst_only_witness :
    exampleParse "garbage" = none
      ∧ burstNeeded exampleParse defaultConfig exampleNow
          ⟨some (withResetsAt ⟨50, "2026-01-01T00:01:00Z"⟩ "garbage"), some weeklySoon⟩ = true :=
  ⟨by decide,
    (unparsable_reset_disables_burst_only exampleParse
      (newAccountPoller exampleAccount defaultConfig) ⟨50, "2026-01-01T00:01:00Z"⟩
      (some weeklySoon) "garbage" exampleNow (by decide) (by decide)).2.2.2.1.2
      ⟨weeklySoon, 1767225660 * Second, rfl, by decide, by decide, by decide⟩⟩

/-! ## Backing off -/

/-- C8, as the code has it: on a successful poll in which neither utilization
changed nor a burst is needed, and in which `streak + 1` and `2 * interval` are
64-bit values, the streak becomes `streak + 1` (a doubling does not reset it), and
the interval becomes `min (2 * interval) IdleInterval` if the incremented streak is
at least `IdleThreshold` and keeps its value otherwise. -/
theorem unchanged_poll_backs_off (timeParse : String → Option Int) (p : accountPoller)
    (usage : usageResponse) (now : Int)
    (hs : windowUtil usage.FiveHour = p.prevSession)
    (hk : windowUtil usage.SevenDay = p.prevWeekly)
    (hb : burstNeeded timeParse p.cfg now usage = false)
    (hcount : Representable (p.unchangedCount + 1))
    (hdouble : Representable (2 * p.interval)) :
    (doPoll timeParse p (some usage) now).1.unchangedCount = p.unchangedCount + 1
      ∧ (doPoll timeParse p (some usage) now).1.interval =
          if p.unchangedCount + 1 ≥ p.cfg.IdleThreshold then
            min (2 * p.interval) p.cfg.IdleInterval
          else p.interval := by
  have hc : utilChanged p usage = false := (utilChanged_eq_false_iff p usage).2 ⟨hs, hk⟩
  have h := doPoll_idle timeParse p usage now hb hc
  have hd : wrapInt64 (p.interval * 2) = 2 * p.interval := by
    rw [mul_comm]; exact wrapInt64_eq_self hdouble
  rw [wrapInt64_eq_self hcount, hd] at h
  refine ⟨h.1, ?_⟩
  rw [h.2]
  split_ifs with h1 h2
  · exact (min_eq_right (le_of_lt h2)).symm
  · exact (min_eq_left (not_lt.1 h2)).symm
  · rfl

/-- Witness for C8: the default poller with streak 2 and interval 30 s reaches the
threshold 3 and doubles to 60 s. -/
theorem unchanged_poll_backs_off_witness :
    (doPoll exampleParse { newAccountPoller exampleAccount defaultConfig with unchangedCount := 2 }
        (some noWindows) exampleNow).1.unchangedCount = 2 + 1
      ∧ (doPoll exampleParse
          { newAccountPoller exampleAccount defaultConfig with unchangedCount := 2 }
          (some noWindows) exampleNow).1.interval =
          if (2 : Int) + 1 ≥ 3 then min (2 * (30 * Second)) (5 * Minute) else 30 * Second :=
  unchanged_poll_backs_off exampleParse
    { newAccountPoller exampleAccount defaultConfig with unchangedCount := 2 }
    noWindows exampleNow rfl rfl rfl (by decide) (by decide)

set_option maxRecDepth 100000 in
/-- C8 fails where the doubling wraps: `overflowFile` is accepted, its poller starts
with interval 2^62 ns, and the first poll, which is unchanged, needs no burst and
brings the streak to the threshold 1, leaves the interval at -2^63 ns, which is not
`min (2 * interval) IdleInterval` = 2^62 ns.  Likewise the increment wraps: from a
streak of 2^63 - 1 an unchanged poll does not give `streak + 1`. -/
theorem doubling_wraps_counterexample :
    startPollers (some overflowFile) = some [overflowPoller]
      ∧ windowUtil noWindows.FiveHour = overflowPoller.prevSession
      ∧ windowUtil noWindows.SevenDay = overflowPoller.prevWeekly
      ∧ burstNeeded exampleParse overflowPoller.cfg exampleNow noWindows = false
      ∧ overflowPoller.unchangedCount + 1 ≥ overflowPoller.cfg.IdleThreshold
      ∧ (doPoll exampleParse overflowPoller (some noWindows) exampleNow).1.interval = -(2 ^ 63)
      ∧ min (2 * overflowPoller.interval) overflowPoller.cfg.IdleInterval = 2 ^ 62
      ∧ (doPoll exampleParse overflowPoller (some noWindows) exampleNow).1.interval
          ≠ min (2 * overflowPoller.interval) overflowPoller.cfg.IdleInterval
      ∧ (doPoll exampleParse saturatedPoller (some noWindows) exampleNow).1.unchangedCount
          ≠ saturatedPoller.unchangedCount + 1 := by
  decide

/-! ## Absent windows -/

/-- C9, as the code has it: on a successful poll in which a window is absent, that
window's utilization is taken (and stored) as 0, and its dimension counts as
changed exactly when the stored previous value is non-zero: if it is non-zero the
poll is a changed poll (streak 0, interval `ActiveInterval`); if it is 0 the
dimension is "no change" and the poll is changed only if the other dimension is.
First conjunct: session window absent; second: weekly window absent. -/
theorem absent_window_is_zero (timeParse : String → Option Int) (p : accountPoller)
    (usage : usageResponse) (now : Int) :
    (usage.FiveHour = none →
        (doPoll timeParse p (some usage) now).1.prevSession = 0
          ∧ (p.prevSession ≠ 0 →
              utilChanged p usage = true
                ∧ (doPoll timeParse p (some usage) now).1.unchangedCount = 0
                ∧ (doPoll timeParse p (some usage) now).1.interval = p.cfg.ActiveInterval)
          ∧ (p.prevSession = 0 →
              (utilChanged p usage = true ↔ windowUtil usage.SevenDay ≠ p.prevWeekly)))
      ∧ (usage.SevenDay = none →
        (doPoll timeParse p (some usage) now).1.prevWeekly = 0
          ∧ (p.prevWeekly ≠ 0 →
              utilChanged p usage = true
                ∧ (doPoll timeParse p (some usage) now).1.unchangedCount = 0
                ∧ (doPoll timeParse p (some usage) now).1.interval = p.cfg.ActiveInterval)
          ∧ (p.prevWeekly = 0 →
              (utilChanged p usage = true ↔ windowUtil usage.FiveHour ≠ p.prevSession))) := by
  constructor
  · intro habs
    have hz : windowUtil usage.FiveHour = 0 := by rw [habs]; rfl
    refine ⟨by rw [doPoll_ok_prevSession, hz], ?_, ?_⟩
    · intro hne
      have hc : utilChanged p usage = true := by
        rw [utilChanged_eq_true_iff, hz]; exact Or.inl (Ne.symm hne)
      exact ⟨hc, doPoll_reset timeParse p usage now (Or.inr hc)⟩
    · intro h0
      rw [utilChanged_eq_true_iff, hz, h0]
      simp
  · intro habs
    have hz : windowUtil usage.SevenDay = 0 := by rw [habs]; rfl
    refine ⟨by rw [doPoll_ok_prevWeekly, hz], ?_, ?_⟩
    · intro hne
      have hc : utilChanged p usage = true := by
        rw [utilChanged_eq_true_iff, hz]; exact Or.inr (Ne.symm hne)
      exact ⟨hc, doPoll_reset timeParse p usage now (Or.inr hc)⟩
    · intro h0
      rw [utilChanged_eq_true_iff, hz, h0]
      simp

set_option maxRecDepth 100000 in
/-- Witness for C9: after two polls reporting session utilization 50, a poll
without a session window is a changed poll. -/
theorem absent_window_is_zero_witness :
    utilChanged afterTwoFifties noWindows = true
      ∧ (doPoll exampleParse afterTwoFifties (some noWindows) exampleNow).1.unchangedCount = 0
      ∧ (doPoll exampleParse afterTwoFifties (some noWindows) exampleNow).1.interval
          = afterTwoFifties.cfg.ActiveInterval :=
  ((absent_window_is_zero exampleParse afterTwoFifties noWindows exampleNow).1 rfl).2.1
    (by decide)

set_option maxRecDepth 100000 in
/-- C9 fails as stated: after two polls reporting session utilization 50 the stored
previous session value is 50, not 0, and the streak is 1; the next poll has no
session window, an unchanged weekly value and needs no burst, yet it counts as
changed: the streak is reset to 0 instead of becoming 2. -/
theorem absent_window_counterexample :
    afterTwoFifties.prevSession = 50
      ∧ afterTwoFifties.prevSession ≠ 0
      ∧ afterTwoFifties.unchangedCount = 1
      ∧ noWindows.FiveHour = none
      ∧ windowUtil noWindows.SevenDay = afterTwoFifties.prevWeekly
      ∧ burstNeeded exampleParse afterTwoFifties.cfg exampleNow noWindows = false
      ∧ utilChanged afterTwoFifties noWindows = true
      ∧ (doPoll exampleParse afterTwoFifties (some noWindows) exampleNow).1.unchangedCount = 0
      ∧ (doPoll exampleParse afterTwoFifties (some noWindows) exampleNow).1.unchangedCount
          ≠ afterTwoFifties.unchangedCount + 1 := by
  decide

/-! ## The back-off schedule with the default parameters -/

/-- C5, as the code has it: with `IdleThreshold` 3, `ActiveInterval` 30 s and
`IdleInterval` 5 min, a fresh poller that receives successful polls all reporting
the same utilizations, not both 0 after clamping, and none needing a burst, has
interval 30 s after each of the first three polls, 60 s after the fourth, 120 s
after the fifth, 240 s after the sixth, and 300 s after the seventh and after every
later poll; it never exceeds 300 s. -/
theorem steady_polls_schedule (timeParse : String → Option Int) (acc : Account)
    (cfg : pollerConfig) (a b : ℚ) (ps : List PollInput)
    (ht : cfg.IdleThreshold = 3) (ha : cfg.ActiveInterval = 30 * Second)
    (hi : cfg.IdleInterval = 5 * Minute) (hnz : a ≠ 0 ∨ b ≠ 0)
    (hsteady : ∀ i ∈ ps, ∃ u, i.fetch = some u ∧ windowUtil u.FiveHour = a
      ∧ windowUtil u.SevenDay = b ∧ burstNeeded timeParse cfg i.now u = false) :
    (run timeParse (newAccountPoller acc cfg) ps).interval = steadySchedule ps.length
      ∧ (ps.length ≤ 3 →
          (run timeParse (newAccountPoller acc cfg) ps).interval = 30 * Second)
      ∧ (ps.length = 4 →
          (run timeParse (newAccountPoller acc cfg) ps).interval = 60 * Second)
      ∧ (ps.length = 5 →
          (run timeParse (newAccountPoller acc cfg) ps).interval = 120 * Second)
      ∧ (ps.length = 6 →
          (run timeParse (newAccountPoller acc cfg) ps).interval = 240 * Second)
      ∧ (7 ≤ ps.length →
          (run timeParse (newAccountPoller acc cfg) ps).interval = 300 * Second)
      ∧ (run timeParse (newAccountPoller acc cfg) ps).interval ≤ 300 * Second := by
  have main : (run timeParse (newAccountPoller acc cfg) ps).interval
      = steadySchedule ps.length := by
    cases ps with
    | nil => exact ha
    | cons i rest =>
      obtain ⟨u, hu, h5, h7, hb⟩ := hsteady i (List.mem_cons_self _ _)
      have hc : utilChanged (newAccountPoller acc cfg) u = true := by
        rw [utilChanged_eq_true_iff, h5, h7]
        exact hnz
      have hreset := doPoll_reset timeParse (newAccountPoller acc cfg) u i.now (Or.inr hc)
      have hcfg : (doPoll timeParse (newAccountPoller acc cfg) (some u) i.now).1.cfg = cfg :=
        doPoll_cfg _ _ _ _
      have hrest := run_steady timeParse a b rest
        (doPoll timeParse (newAccountPoller acc cfg) (some u) i.now).1
        (by rw [doPoll_ok_prevSession, h5]) (by rw [doPoll_ok_prevWeekly, h7])
        (by
          intro j hj
          rw [hcfg]
          exact hsteady j (List.mem_cons_of_mem _ hj))
      rw [hcfg, hreset.1, hreset.2, ht, hi] at hrest
      have hval : (newAccountPoller acc cfg).cfg.ActiveInterval = 30 * Second := ha
      rw [hval] at hrest
      have hsnd := congrArg Prod.snd hrest
      simp only at hsnd
      simp only [run, hu, List.length_cons]
      rw [hsnd, idleSteps_schedule]
  refine ⟨main, ?_, ?_, ?_, ?_, ?_, ?_⟩
  · intro h; rw [main]; unfold steadySchedule; rw [if_pos h]
  · intro h; rw [main, h]; decide
  · intro h; rw [main, h]; decide
  · intro h; rw [main, h]; decide
  · intro h
    rw [main]
    unfold steadySchedule
    rw [if_neg (by omega), if_neg (by omega), if_neg (by omega), if_neg (by omega)]
  · rw [main]
    unfold steadySchedule
    split_ifs <;> decide

set_option maxRecDepth 100000 in
/-- Witness for C5: five polls reporting session utilization 50. -/
theorem steady_polls_schedule_witness :
    (run exampleParse (newAccountPoller exampleAccount defaultConfig)
        (List.replicate 5 ⟨some (sessionOnly 50), exampleNow⟩)).interval = 120 * Second :=
  (steady_polls_schedule exampleParse exampleAccount defaultConfig 50 0
    (List.replicate 5 ⟨some (sessionOnly 50), exampleNow⟩) rfl rfl rfl (Or.inl (by norm_num))
    (by
      intro i hi
      rw [List.eq_of_mem_replicate hi]
      exact ⟨sessionOnly 50, rfl, by decide, by decide, by decide⟩)).2.2.2.1 rfl

set_option maxRecDepth 100000 in
/-- C5 fails as stated: with the default parameters, seven successive polls that
all report session utilization 50 and need no burst leave the interval at 300 s,
not at 120 s; 120 s is the interval after the fifth poll. -/
theorem seventh_poll_counterexample :
    defaultConfig.IdleThreshold = 3 ∧ defaultConfig.ActiveInterval = 30 * Second
      ∧ defaultConfig.IdleInterval = 5 * Minute
      ∧ windowUtil (sessionOnly 50).FiveHour = 50
      ∧ burstNeeded exampleParse defaultConfig exampleNow (sessionOnly 50) = false
      ∧ (run exampleParse (newAccountPoller exampleAccount defaultConfig)
          (List.replicate 4 ⟨some (sessionOnly 50), exampleNow⟩)).interval = 60 * Second
      ∧ (run exampleParse (newAccountPoller exampleAccount defaultConfig)
          (List.replicate 5 ⟨some (sessionOnly 50), exampleNow⟩)).interval = 120 * Second
      ∧ (run exampleParse (newAccountPoller exampleAccount defaultConfig)
          (List.replicate 7 ⟨some (sessionOnly 50), exampleNow⟩)).interval = 300 * Second
      ∧ (run exampleParse (newAccountPoller exampleAccount defaultConfig)
          (List.replicate 7 ⟨some (sessionOnly 50), exampleNow⟩)).interval ≠ 120 * Second := by
  decide

/-! ## The interval bounds -/

/-- C1, as the code has it: for every poller the program starts from an accepted
configuration with `0 ≤ ActiveInterval ≤ IdleInterval < 2^62 ns` (the defaults
are such), and every finite sequence of successful and failed polls, the interval
after each poll (after the first `k` polls, for every `k`) satisfies
`ActiveInterval ≤ interval ≤ IdleInterval`. -/
theorem started_poller_interval_bounds (timeParse : String → Option Int)
    (file : Option ConfigFile) (pollers : List accountPoller) (p : accountPoller)
    (ps : List PollInput) (k : Nat)
    (hstart : startPollers file = some pollers) (hp : p ∈ pollers)
    (h0 : 0 ≤ p.cfg.ActiveInterval) (h1 : p.cfg.ActiveInterval ≤ p.cfg.IdleInterval)
    (h2 : p.cfg.IdleInterval < 2 ^ 62) :
    p.cfg.ActiveInterval ≤ (run timeParse p (ps.take k)).interval
      ∧ (run timeParse p (ps.take k)).interval ≤ p.cfg.IdleInterval := by
  obtain ⟨cfg, acc, _, _, rfl⟩ := startPollers_mem file pollers p hstart hp
  exact run_interval_bounds timeParse (ps.take k) _ h0 h1 h2 (le_refl _) h1

set_option maxRecDepth 100000 in
/-- Witness for C1: the poller started for a file that only lists an account, after
the first two of three polls. -/
theorem started_poller_interval_bounds_witness :
    30 * Second ≤ (run exampleParse (newAccountPoller exampleAccount defaultConfig)
        (List.take 2 [⟨some (sessionOnly 50), exampleNow⟩, ⟨none, exampleNow⟩,
          ⟨some noWindows, exampleNow⟩])).interval
      ∧ (run exampleParse (newAccountPoller exampleAccount defaultConfig)
        (List.take 2 [⟨some (sessionOnly 50), exampleNow⟩, ⟨none, exampleNow⟩,
          ⟨some noWindows, exampleNow⟩])).interval ≤ 5 * Minute :=
  started_poller_interval_bounds exampleParse (some accountsOnlyFile)
    [newAccountPoller exampleAccount defaultConfig]
    (newAccountPoller exampleAccount defaultConfig)
    [⟨some (sessionOnly 50), exampleNow⟩, ⟨none, exampleNow⟩, ⟨some noWindows, exampleNow⟩] 2
    (by decide) (List.mem_singleton.2 rfl) (by decide) (by decide) (by decide)

set_option maxRecDepth 100000 in
/-- C1 fails as stated, in three ways.  `invertedFile` (active 10 min, idle 5 min)
is accepted and its poller has interval 10 min, above `IdleInterval`, after a
failed poll.  `negativeFile` (active -10 s) is accepted, has
`ActiveInterval ≤ IdleInterval`, and one unchanged poll doubles the interval to
-20 s, below `ActiveInterval`.  `overflowFile` (both intervals 2^62 ns) is accepted,
has `0 ≤ ActiveInterval ≤ IdleInterval`, and one unchanged poll wraps the interval
to -2^63 ns, below `ActiveInterval`. -/
theorem unvalidated_config_counterexample :
    (startPollers (some invertedFile) = some [invertedPoller]
        ∧ ¬ (run exampleParse invertedPoller [⟨none, exampleNow⟩]).interval
            ≤ invertedPoller.cfg.IdleInterval)
      ∧ (startPollers (some negativeFile) = some [negativePoller]
        ∧ negativePoller.cfg.ActiveInterval ≤ negativePoller.cfg.IdleInterval
        ∧ ¬ negativePoller.cfg.ActiveInterval
            ≤ (run exampleParse negativePoller [⟨some noWindows, exampleNow⟩]).interval)
      ∧ (startPollers (some overflowFile) = some [overflowPoller]
        ∧ 0 ≤ overflowPoller.cfg.ActiveInterval
        ∧ overflowPoller.cfg.ActiveInterval ≤ overflowPoller.cfg.IdleInterval
        ∧ ¬ overflowPoller.cfg.ActiveInterval
            ≤ (run exampleParse overflowPoller [⟨some noWindows, exampleNow⟩]).interval) := by
  decide

/-- C10, as the code has it: if `0 ≤ ActiveInterval ≤ IdleInterval < 2^62 ns`, then
for every `IdleThreshold` and `ResetBurstWindow` (zero and negative ones included)
and every finite sequence of successful and failed polls from a freshly constructed
poller, the state reached satisfies `ActiveInterval ≤ interval ≤ IdleInterval`, and
also `0 ≤ streak ≤ number of polls` as long as fewer than 2^63 polls have been
made (the 64-bit streak counter wraps at 2^63). -/
theorem fresh_poller_invariants (timeParse : String → Option Int) (acc : Account)
    (cfg : pollerConfig) (ps : List PollInput)
    (h0 : 0 ≤ cfg.ActiveInterval) (h1 : cfg.ActiveInterval ≤ cfg.IdleInterval)
    (h2 : cfg.IdleInterval < 2 ^ 62) :
    cfg.ActiveInterval ≤ (run timeParse (newAccountPoller acc cfg) ps).interval
      ∧ (run timeParse (newAccountPoller acc cfg) ps).interval ≤ cfg.IdleInterval
      ∧ ((ps.length : Int) < 2 ^ 63 →
          0 ≤ (run timeParse (newAccountPoller acc cfg) ps).unchangedCount
            ∧ (run timeParse (newAccountPoller acc cfg) ps).unchangedCount
                ≤ (ps.length : Int)) := by
  have hb := run_interval_bounds timeParse ps (newAccountPoller acc cfg) h0 h1 h2
    (le_refl _) h1
  refine ⟨hb.1, hb.2, fun hlen => ?_⟩
  have hc := run_count_bounds timeParse ps (newAccountPoller acc cfg) (le_refl _)
    (by
      show (0 : Int) + (ps.length : Int) < 2 ^ 63
      omega)
  have hz : (newAccountPoller acc cfg).unchangedCount = 0 := rfl
  rw [hz, zero_add] at hc
  exact hc

set_option maxRecDepth 100000 in
/-- Witness for C10: threshold 0 and a negative burst window; three polls. -/
theorem fresh_poller_invariants_witness :
    30 * Second ≤ (run exampleParse
        (newAccountPoller exampleAccount ⟨30 * Second, 5 * Minute, 0, -1⟩)
        [⟨some (sessionOnly 50), exampleNow⟩, ⟨none, exampleNow⟩,
          ⟨some (sessionOnly 50), exampleNow⟩]).interval
      ∧ (run exampleParse
        (newAccountPoller exampleAccount ⟨30 * Second, 5 * Minute, 0, -1⟩)
        [⟨some (sessionOnly 50), exampleNow⟩, ⟨none, exampleNow⟩,
          ⟨some (sessionOnly 50), exampleNow⟩]).interval ≤ 5 * Minute
      ∧ 0 ≤ (run exampleParse
        (newAccountPoller exampleAccount ⟨30 * Second, 5 * Minute, 0, -1⟩)
        [⟨some (sessionOnly 50), exampleNow⟩, ⟨none, exampleNow⟩,
          ⟨some (sessionOnly 50), exampleNow⟩]).unchangedCount :=
  have h := fresh_poller_invariants exampleParse exampleAccount
    ⟨30 * Second, 5 * Minute, 0, -1⟩
    [⟨some (sessionOnly 50), exampleNow⟩, ⟨none, exampleNow⟩,
      ⟨some (sessionOnly 50), exampleNow⟩] (by decide) (by decide) (by decide)
  ⟨h.1, h.2.1, (h.2.2 (by decide)).1⟩

/-- C10 fails as stated for the streak: the default parameters satisfy
`0 ≤ ActiveInterval ≤ IdleInterval < 2^62`, and after 2^63 successive polls that
report no window (so nothing changes and no burst is needed) the 64-bit streak
counter of a fresh poller has wrapped to -2^63, which is negative. -/
theorem streak_wraps_counterexample :
    0 ≤ defaultConfig.ActiveInterval
      ∧ defaultConfig.ActiveInterval ≤ defaultConfig.IdleInterval
      ∧ defaultConfig.IdleInterval < 2 ^ 62
      ∧ (run exampleParse (newAccountPoller exampleAccount defaultConfig)
          (List.replicate (2 ^ 63) ⟨some noWindows, exampleNow⟩)).unchangedCount = -(2 ^ 63)
      ∧ ¬ 0 ≤ (run exampleParse (newAccountPoller exampleAccount defaultConfig)
          (List.replicate (2 ^ 63) ⟨some noWindows, exampleNow⟩)).unchangedCount := by
  have h := run_noWindows_count exampleParse exampleNow (2 ^ 63)
    (newAccountPoller exampleAccount defaultConfig) rfl rfl (by decide)
  have hv : wrapInt64 ((newAccountPoller exampleAccount defaultConfig).unchangedCount
      + ((2 ^ 63 : Nat) : Int)) = -(2 ^ 63) := by decide
  rw [hv] at h
  refine ⟨by decide, by decide, by decide, h, ?_⟩
  rw [h]
  decide

end ClaudeUsageExporter
